import Mathlib

/-!
Verification development for the book/movie adaptation ingestion pipeline
(`gather_data.py`, `calculation_visualization.py`).

The SQLite tables are modelled as insertion-ordered lists of rows (no row is
ever deleted by the program, and every scan the program issues is a plain
table scan, which SQLite performs in rowid order, i.e. insertion order).
`INSERT OR IGNORE` against a UNIQUE column is modelled as a conditional
append.  Network fetches are parameters: an oracle maps a title to the
outcome of the HTTP request, and the `fetch_*_raw` wrappers model the
try/except blocks that convert request/JSON errors into `None`.
-/

/-- Whitespace characters recognised by Python's `str.strip()` and by the
regex class `\s` (ASCII range, which covers the data handled here). -/
def pySpace (c : Char) : Bool :=
  c = ' ' || c = '\t' || c = '\n' || c = '\r' || c = '\x0b' || c = '\x0c'

/-- Python `str.strip()` on a character list: drop whitespace from both ends. -/
def pyStrip (l : List Char) : List Char :=
  ((l.dropWhile pySpace).reverse.dropWhile pySpace).reverse

/-- Is the first character of the list a decimal digit? -/
def headIsDigit : List Char → Bool
  | [] => false
  | d :: _ => d.isDigit

/-- Does the list contain a `'#'` immediately followed by a decimal digit?
This is the `#\d+` core of the series-marker regex. -/
def hasHashDigit : List Char → Bool
  | [] => false
  | c :: rest => (c = '#' && headIsDigit rest) || hasHashDigit rest

/-- Does `t` match the regex fragment `\s*\(.*?#\d+.*\)` in full (anchored on
both sides)?  Equivalently: optional leading whitespace, then `'('`, then a
newline-free middle that contains `'#'` followed by a digit, then a final
`')'` as the last character.  (`.` in Python does not match a newline.) -/
def suffixMatchesSeries (t : List Char) : Bool :=
  match t.dropWhile pySpace with
  | [] => false
  | c :: tail =>
    c = '(' &&
      (match tail.reverse with
       | [] => false
       | c2 :: revMid =>
         c2 = ')' && !revMid.reverse.contains '\n' && hasHashDigit revMid.reverse)

/-- Matching of `re.match(r"^(.*?)(\s*\(.*?#\d+.*\))$", title)`: the lazy
first group means the engine returns the shortest group 1 whose remainder
matches the series-marker suffix pattern to the end of the string.  Group 1
is built in `pre` (reversed); `.*?` cannot cross a newline, so scanning stops
at the first `'\n'`.  Returns group 1 when the regex matches. -/
def findSeriesSplit : List Char → List Char → Option (List Char)
  | pre, [] => if suffixMatchesSeries [] then some pre.reverse else none
  | pre, c :: rest =>
    if suffixMatchesSeries (c :: rest) then some pre.reverse
    else if c = '\n' then none
    else findSeriesSplit (c :: pre) rest

/-- Model of `clean_goodreads_title` (`gather_data.py`, lines 80–96): if the
title has a trailing parenthesised chunk containing `#<digits>`, strip it;
then strip surrounding whitespace. -/
def clean_goodreads_title (raw : String) : String :=
  match findSeriesSplit [] raw.data with
  | some pre => String.mk (pyStrip pre)
  | none => String.mk (pyStrip raw.data)

/-! ## Database model -/

/-- Row of the `Adaptations` table (`title` is UNIQUE). -/
structure AdaptRow where
  id : Nat
  title : String
  source_url : String
deriving DecidableEq

/-- Row of the `Books` table (`book_title` is UNIQUE). -/
structure BookRow where
  book_id : Nat
  book_title : String
  authors : Option String
  book_rating : Option Rat
  ratings_count : Option Int
deriving DecidableEq

/-- Row of the `Movies` table (`movie_title` is UNIQUE; it may be NULL, and
SQL treats NULLs as distinct for UNIQUE and never equal under `=`). -/
structure MovieRow where
  movie_id : Nat
  movie_title : Option String
  movie_rating : Option Rat
  movie_count : Option Int
deriving DecidableEq

/-- The four relations of the pipeline (plus the `Book_Movie` join table,
which has no UNIQUE constraint on its id pair).  `FailedTitles` only ever
exposes its UNIQUE `title` column, so it is kept as the list of titles. -/
structure DB where
  adaptations : List AdaptRow
  books : List BookRow
  movies : List MovieRow
  bookMovie : List (Nat × Nat)
  failedTitles : List String
deriving DecidableEq

/-- The empty database, as produced by `create_tables` on a fresh file. -/
def emptyDB : DB := ⟨[], [], [], [], []⟩

/-- Goodreads list URL recorded as `source_url` by the scraper. -/
def goodreadsListUrl : String :=
  "https://www.goodreads.com/list/show/87198.Books_Made_into_Movies_or_TV_Shows"

/-- One title insertion of `scrape_adaptations_if_needed` (lines 163–178):
`INSERT OR IGNORE INTO Adaptations (title, source_url)` of an
already-cleaned title.  A duplicate `title` hits the UNIQUE constraint and
is ignored. -/
def registerCleaned (db : DB) (t : String) : DB :=
  if db.adaptations.any (fun a => a.title = t) then db
  else { db with
    adaptations := db.adaptations ++ [⟨db.adaptations.length + 1, t, goodreadsListUrl⟩] }

/-- Registration of a raw scraped string: normalisation by
`clean_goodreads_title` followed by the deduplicated insert, exactly as the
scrape loop does (clean at line 155, insert at line 169). -/
def registerTitle (db : DB) (raw : String) : DB :=
  registerCleaned db (clean_goodreads_title raw)

/-- Lines 389–392 / 403–406 of `load_batch`:
`INSERT OR IGNORE INTO FailedTitles (title) VALUES (?)`. -/
def markFailed (db : DB) (t : String) : DB :=
  if db.failedTitles.contains t then db
  else { db with failedTitles := db.failedTitles ++ [t] }

/-- Model of `get_pending_titles` (lines 182–206): titles of `Adaptations`
with no `Books` row of the same `book_title`, no `Movies` row of the same
`movie_title`, and no `FailedTitles` row, in table-scan (insertion) order,
truncated by `LIMIT`.  A NULL `movie_title` never equals a title under
SQL `=`. -/
def get_pending_titles (db : DB) (limit : Nat) : List String :=
  (((db.adaptations.filter (fun a =>
      (db.books.find? (fun b => b.book_title = a.title)).isNone &&
      (db.movies.find? (fun m => m.movie_title = some a.title)).isNone &&
      !(db.failedTitles.contains a.title))).map (fun a => a.title)).take limit)

/-! ## Rating conversion (`calculation_visualization.py`, lines 58–62) -/

/-- Model of `convert_movie_rating`: `None` stays `None`; a present 0–10
rating is halved onto the 0–5 scale.  Ratings are modelled as rationals. -/
def convert_movie_rating : Option Rat → Option Rat
  | none => none
  | some r => some (r / 2)

/-! ## External sources and parsing -/

/-- Outcome of one HTTP request: a decoded JSON body, a
`requests.RequestException` (connection error, timeout, or bad HTTP
status), or a `json.JSONDecodeError`. -/
inductive NetResult (α : Type) where
  | ok (body : α)
  | requestError
  | decodeError
deriving DecidableEq

/-- The `volumeInfo` object of a Google Books item; a missing key reads as
`none` (`dict.get`).  A missing `volumeInfo` dict defaults to the empty
dict, i.e. the all-`none` record. -/
structure GBVolumeInfo where
  title : Option String
  authors : Option (List String)
  averageRating : Option Rat
  ratingsCount : Option Int
deriving DecidableEq

/-- One element of the Google Books `items` array. -/
structure GBItem where
  volumeInfo : GBVolumeInfo
deriving DecidableEq

/-- Decoded Google Books response body: the optional `items` array. -/
structure GBRaw where
  items : Option (List GBItem)
deriving DecidableEq

/-- Decoded OMDb response body: the four keys that `parse_omdb_entry`
reads, each `none` when missing. -/
structure OMDbRaw where
  response : Option String
  title : Option String
  imdbRating : Option String
  imdbVotes : Option String
deriving DecidableEq

/-- Model of `fetch_google_books_raw` (lines 209–224): the try/except turns
a request or JSON-decoding error into `None`; a successful request yields
the decoded body. -/
def fetch_google_books_raw : NetResult GBRaw → Option GBRaw
  | .ok body => some body
  | .requestError => none
  | .decodeError => none

/-- The `OMDB_API_KEY` constant of `gather_data.py` (line 9). -/
def OMDB_API_KEY : String := ""

/-- Model of `fetch_omdb_raw` (lines 259–278): bail out when the API key
still holds the placeholder, otherwise absorb request/JSON errors into
`None` exactly as the books fetcher does. -/
def fetch_omdb_raw (r : NetResult OMDbRaw) : Option OMDbRaw :=
  if OMDB_API_KEY = "YOUR_OMDB_API_KEY_HERE" then none
  else match r with
  | .ok body => some body
  | .requestError => none
  | .decodeError => none

/-- The dict built by `parse_google_books_entry`. -/
structure BookData where
  book_title : String
  authors : Option String
  book_rating : Option Rat
  ratings_count : Option Int
deriving DecidableEq

/-- The dict built by `parse_omdb_entry`.  OMDb may omit `Title`, so the
stored movie title is optional (a SQL NULL when absent). -/
structure MovieData where
  movie_title : Option String
  movie_rating : Option Rat
  movie_count : Option Int
deriving DecidableEq

/-- Is an optional string falsy in Python (`not title`): missing or empty? -/
def pyFalsyStr : Option String → Bool
  | none => true
  | some s => s = ""

/-- Model of `parse_google_books_entry` (lines 226–256): `None` raw, a
missing/empty `items` array, or a falsy first title yield `None`; otherwise
the authors list is joined with a comma and the two numeric fields are
passed through. -/
def parse_google_books_entry (raw : Option GBRaw) : Option BookData :=
  match raw with
  | none => none
  | some r =>
    match r.items with
    | none => none
    | some [] => none
    | some (item :: _) =>
      let vi := item.volumeInfo
      if pyFalsyStr vi.title then none
      else
        some { book_title := vi.title.getD ""
               authors := vi.authors.map (fun l => String.intercalate ", " l)
               book_rating := vi.averageRating
               ratings_count := vi.ratingsCount }

/-- Model of Python `float()` on OMDb rating strings: an optional minus
sign, then digits, optionally a dot and more digits.  Inputs outside this
shape (the ones OMDb never produces) raise `ValueError` in the source,
which `parse_omdb_entry` turns into `None`; here they are simply `none`. -/
def pyFloat? (s : String) : Option Rat :=
  let core : List Char → Option Rat := fun l =>
    match l.span Char.isDigit with
    | (intPart, []) =>
      if intPart.isEmpty then none
      else some ((intPart.foldl (fun n c => 10 * n + (c.toNat - 48)) 0 : Nat) : Rat)
    | (intPart, '.' :: fracPart) =>
      if intPart.isEmpty || fracPart.isEmpty || !fracPart.all Char.isDigit then none
      else
        let ip : Nat := intPart.foldl (fun n c => 10 * n + (c.toNat - 48)) 0
        let fp : Nat := fracPart.foldl (fun n c => 10 * n + (c.toNat - 48)) 0
        some ((ip : Rat) + (fp : Rat) / ((10 : Rat) ^ fracPart.length))
    | _ => none
  match s.data with
  | '-' :: rest => (core rest).map (fun q => -q)
  | l => core l

/-- Model of Python `int()` on comma-stripped OMDb vote strings: an
optional minus sign then digits; anything else raises `ValueError`. -/
def pyInt? (s : String) : Option Int :=
  let digits : List Char → Option Nat := fun l =>
    if l.isEmpty || !l.all Char.isDigit then none
    else some (l.foldl (fun n c => 10 * n + (c.toNat - 48)) 0)
  match s.data with
  | '-' :: rest => (digits rest).map (fun n => -(n : Int))
  | l => (digits l).map (fun n => (n : Int))

/-- Model of `parse_omdb_entry` (lines 281–314): `None` raw or a `Response`
different from `"True"` yield `None`; the title is passed through as-is;
rating and votes parse to `none` on the `"N/A"` sentinel, a falsy value, or
a parse failure (votes lose their thousands commas first). -/
def parse_omdb_entry (raw : Option OMDbRaw) : Option MovieData :=
  match raw with
  | none => none
  | some r =>
    if r.response ≠ some "True" then none
    else
      let rating : Option Rat :=
        match r.imdbRating with
        | none => none
        | some s => if s = "" || s = "N/A" then none else pyFloat? s
      let votes : Option Int :=
        match r.imdbVotes with
        | none => none
        | some s =>
          if s = "" || s = "N/A" then none
          else pyInt? (String.mk (s.data.filter (fun c => c ≠ ',')))
      some { movie_title := r.title, movie_rating := rating, movie_count := votes }

/-! ## Committing one pair (`insert_adaptation`, lines 316–366) -/

/-- The first statement of `insert_adaptation`:
`INSERT OR IGNORE INTO Books (...)` — ignored when a row with the same
`book_title` already exists (UNIQUE constraint). -/
def insertBookIgnore (db : DB) (book : BookData) : DB :=
  if db.books.any (fun b => b.book_title = book.book_title) then db
  else { db with books := db.books ++
    [⟨db.books.length + 1, book.book_title, book.authors, book.book_rating,
      book.ratings_count⟩] }

/-- The third statement of `insert_adaptation`:
`INSERT OR IGNORE INTO Movies (...)` — ignored only when the new
`movie_title` is non-NULL and collides with an existing one (SQL UNIQUE
never fires on NULLs). -/
def insertMovieIgnore (db : DB) (movie : MovieData) : DB :=
  if (match movie.movie_title with
      | some mt => db.movies.any (fun m => m.movie_title = some mt)
      | none => false) then db
  else { db with movies := db.movies ++
    [⟨db.movies.length + 1, movie.movie_title, movie.movie_rating,
      movie.movie_count⟩] }

/-- The tail of `insert_adaptation` after the book insert: look up the book
id (an early `return` if absent), insert-or-ignore the movie, look up the
movie id (`WHERE movie_title = NULL` matches nothing, so a NULL title
aborts before the link), then append the `Book_Movie` link row — that
table has no UNIQUE constraint, so its insert always lands. -/
def insertLinkStage (db2 : DB) (brow : BookRow) (movie : MovieData) : DB :=
  match movie.movie_title with
  | none => db2
  | some mt =>
    match db2.movies.find? (fun m => m.movie_title = some mt) with
    | none => db2
    | some mrow =>
      { db2 with bookMovie := db2.bookMovie ++ [(brow.book_id, mrow.movie_id)] }

/-- The two statements before the link stage: the book-id lookup (an early
`return` when it fails) and the movie insert-or-ignore. -/
def insertAdaptationRest (db1 : DB) (book : BookData) (movie : MovieData) : DB :=
  match db1.books.find? (fun b => b.book_title = book.book_title) with
  | none => db1
  | some brow => insertLinkStage (insertMovieIgnore db1 movie) brow movie

/-- Model of `insert_adaptation` (lines 316–366): the book insert followed
by the id lookups, the movie insert and the join-table insert. -/
def insert_adaptation (db : DB) (book : BookData) (movie : MovieData) : DB :=
  insertAdaptationRest (insertBookIgnore db book) book movie

/-! ## The batch driver (`load_batch`, lines 369–414) -/

/-- One iteration body of the `load_batch` loop for a candidate `t`:
fetch+parse Google Books; on failure mark `t` failed (no OMDb call); else
override the parsed book title with the scraped title, fetch+parse OMDb; on
failure mark `t` failed; else commit the pair.  Returns the new state,
whether the pair was committed, and whether OMDb was consulted. -/
def processCandidate (bf : String → NetResult GBRaw) (mf : String → NetResult OMDbRaw)
    (db : DB) (t : String) : DB × Bool × Bool :=
  match parse_google_books_entry (fetch_google_books_raw (bf t)) with
  | none => (markFailed db t, false, false)
  | some gb =>
    match parse_omdb_entry (fetch_omdb_raw (mf t)) with
    | none => (markFailed db t, false, true)
    | some md => (insert_adaptation db { gb with book_title := t } md, true, true)

/-- Accumulated outcome of a `load_batch` loop run: final state, the
`inserted` counter, and ghost instrumentation recording which candidates
were processed and which reached the OMDb fetch. -/
structure LoopRes where
  db : DB
  inserted : Nat
  attempted : List String
  movieCalls : List String
deriving DecidableEq

/-- The `for scraped_title in candidate_titles` loop of `load_batch`
(lines 378–412): stop as soon as `inserted >= max_new`, otherwise process
the next candidate and continue. -/
def loadBatchLoop (bf : String → NetResult GBRaw) (mf : String → NetResult OMDbRaw)
    (maxNew : Nat) : List String → DB → Nat → List String → List String → LoopRes
  | [], db, ins, att, mc => ⟨db, ins, att, mc⟩
  | t :: rest, db, ins, att, mc =>
    if maxNew ≤ ins then ⟨db, ins, att, mc⟩
    else
      match processCandidate bf mf db t with
      | (db', ok, mcall) =>
        loadBatchLoop bf mf maxNew rest db' (if ok then ins + 1 else ins)
          (att ++ [t]) (if mcall then mc ++ [t] else mc)

/-- The final `print` of `load_batch` (line 414) — the only summary the
invocation emits. -/
def finishedLine (inserted maxNew : Nat) : String :=
  "Finished batch: " ++ toString inserted ++ " new adaptations inserted (max "
    ++ toString maxNew ++ ")."

/-- Result of one `load_batch` invocation: the loop outcome plus the
summary line printed on completion.  The Python function itself returns
`None`. -/
structure BatchResult where
  db : DB
  inserted : Nat
  attempted : List String
  movieCalls : List String
  summary : String
deriving DecidableEq

/-- Model of `load_batch` (lines 369–414): draw up to `max_new * 2` pending
candidates (line 375), run the loop from a zero counter, and emit the
summary line. -/
def load_batch (bf : String → NetResult GBRaw) (mf : String → NetResult OMDbRaw)
    (db : DB) (maxNew : Nat) : BatchResult :=
  match loadBatchLoop bf mf maxNew (get_pending_titles db (maxNew * 2)) db 0 [] [] with
  | ⟨db', ins, att, mc⟩ => ⟨db', ins, att, mc, finishedLine ins maxNew⟩

/-! ## Outcome predicates -/

/-- A `Books` row keyed by this title exists (the "BookRecord" of the spec:
book rows are keyed by the scraped title, which `load_batch` writes into
`book_title`). -/
def hasBookRowFor (db : DB) (t : String) : Prop :=
  ∃ b ∈ db.books, b.book_title = t

/-- A `Movies` row keyed by this title exists. -/
def hasMovieRowFor (db : DB) (t : String) : Prop :=
  ∃ m ∈ db.movies, m.movie_title = some t

/-- A `FailedTitles` entry for this title exists. -/
def hasFailedFor (db : DB) (t : String) : Prop :=
  t ∈ db.failedTitles

/-- The title already has some recorded outcome (a record or a failure). -/
def hasOutcomeFor (db : DB) (t : String) : Prop :=
  hasBookRowFor db t ∨ hasMovieRowFor db t ∨ hasFailedFor db t

/-- The title is a pending candidate: registered, with no book row, no
movie row, and no failure entry. -/
def isPendingTitle (db : DB) (t : String) : Prop :=
  (∃ a ∈ db.adaptations, a.title = t) ∧ ¬ hasOutcomeFor db t

/-! ## Monotonicity: the pipeline only ever appends rows -/

/-- Every relation of `db'` extends the corresponding relation of `db` at
the tail — no operation of the pipeline deletes or reorders rows. -/
def dbGrows (db db' : DB) : Prop :=
  (∃ l, db'.adaptations = db.adaptations ++ l) ∧
  (∃ l, db'.books = db.books ++ l) ∧
  (∃ l, db'.movies = db.movies ++ l) ∧
  (∃ l, db'.failedTitles = db.failedTitles ++ l)

lemma dbGrows_refl (db : DB) : dbGrows db db :=
  ⟨⟨[], by simp⟩, ⟨[], by simp⟩, ⟨[], by simp⟩, ⟨[], by simp⟩⟩

lemma dbGrows_trans {a b c : DB} (h1 : dbGrows a b) (h2 : dbGrows b c) : dbGrows a c := by
  obtain ⟨⟨l1, e1⟩, ⟨l2, e2⟩, ⟨l3, e3⟩, ⟨l4, e4⟩⟩ := h1
  obtain ⟨⟨m1, f1⟩, ⟨m2, f2⟩, ⟨m3, f3⟩, ⟨m4, f4⟩⟩ := h2
  exact ⟨⟨l1 ++ m1, by simp [f1, e1]⟩, ⟨l2 ++ m2, by simp [f2, e2]⟩,
    ⟨l3 ++ m3, by simp [f3, e3]⟩, ⟨l4 ++ m4, by simp [f4, e4]⟩⟩

lemma markFailed_grows (db : DB) (t : String) : dbGrows db (markFailed db t) := by
  unfold markFailed; split
  · exact dbGrows_refl db
  · exact ⟨⟨[], by simp⟩, ⟨[], by simp⟩, ⟨[], by simp⟩, ⟨[t], rfl⟩⟩

lemma registerCleaned_grows (db : DB) (t : String) : dbGrows db (registerCleaned db t) := by
  unfold registerCleaned; split
  · exact dbGrows_refl db
  · exact ⟨⟨_, rfl⟩, ⟨[], by simp⟩, ⟨[], by simp⟩, ⟨[], by simp⟩⟩

lemma insertBookIgnore_grows (db : DB) (book : BookData) :
    dbGrows db (insertBookIgnore db book) := by
  unfold insertBookIgnore; split
  · exact dbGrows_refl db
  · exact ⟨⟨[], by simp⟩, ⟨_, rfl⟩, ⟨[], by simp⟩, ⟨[], by simp⟩⟩

lemma insertMovieIgnore_grows (db : DB) (movie : MovieData) :
    dbGrows db (insertMovieIgnore db movie) := by
  unfold insertMovieIgnore; split
  · exact dbGrows_refl db
  · exact ⟨⟨[], by simp⟩, ⟨[], by simp⟩, ⟨_, rfl⟩, ⟨[], by simp⟩⟩

lemma insertLinkStage_grows (db2 : DB) (brow : BookRow) (movie : MovieData) :
    dbGrows db2 (insertLinkStage db2 brow movie) := by
  unfold insertLinkStage
  split
  · exact dbGrows_refl db2
  · split
    · exact dbGrows_refl db2
    · exact ⟨⟨[], by simp⟩, ⟨[], by simp⟩, ⟨[], by simp⟩, ⟨[], by simp⟩⟩

lemma insertAdaptationRest_grows (db1 : DB) (book : BookData) (movie : MovieData) :
    dbGrows db1 (insertAdaptationRest db1 book movie) := by
  unfold insertAdaptationRest
  split
  · exact dbGrows_refl db1
  · exact dbGrows_trans (insertMovieIgnore_grows db1 movie)
      (insertLinkStage_grows (insertMovieIgnore db1 movie) _ movie)

lemma insert_adaptation_grows (db : DB) (book : BookData) (movie : MovieData) :
    dbGrows db (insert_adaptation db book movie) :=
  dbGrows_trans (insertBookIgnore_grows db book)
    (insertAdaptationRest_grows (insertBookIgnore db book) book movie)

lemma processCandidate_grows (bf : String → NetResult GBRaw)
    (mf : String → NetResult OMDbRaw) (db : DB) (t : String) :
    dbGrows db (processCandidate bf mf db t).1 := by
  unfold processCandidate
  cases parse_google_books_entry (fetch_google_books_raw (bf t)) with
  | none => exact markFailed_grows db t
  | some gb =>
    cases parse_omdb_entry (fetch_omdb_raw (mf t)) with
    | none => exact markFailed_grows db t
    | some md => exact insert_adaptation_grows db _ md

lemma loadBatchLoop_grows (bf : String → NetResult GBRaw)
    (mf : String → NetResult OMDbRaw) (maxNew : Nat) :
    ∀ (cands : List String) (db : DB) (ins : Nat) (att mc : List String),
      dbGrows db (loadBatchLoop bf mf maxNew cands db ins att mc).db := by
  intro cands
  induction cands with
  | nil => intro db ins att mc; exact dbGrows_refl db
  | cons t rest ih =>
    intro db ins att mc
    rw [loadBatchLoop]
    split
    · exact dbGrows_refl db
    · exact dbGrows_trans (processCandidate_grows bf mf db t) (ih _ _ _ _)

lemma load_batch_grows (bf : String → NetResult GBRaw)
    (mf : String → NetResult OMDbRaw) (db : DB) (maxNew : Nat) :
    dbGrows db (load_batch bf mf db maxNew).db := by
  unfold load_batch
  exact loadBatchLoop_grows bf mf maxNew _ db 0 [] []

/-- Growth preserves the presence of a book row for a title. -/
lemma hasBookRowFor_mono {db db' : DB} (h : dbGrows db db') {t : String}
    (hb : hasBookRowFor db t) : hasBookRowFor db' t := by
  obtain ⟨b, hmem, hbt⟩ := hb
  obtain ⟨-, ⟨l, e⟩, -, -⟩ := h
  exact ⟨b, by rw [e]; exact List.mem_append_left l hmem, hbt⟩

/-- Growth preserves the presence of a movie row for a title. -/
lemma hasMovieRowFor_mono {db db' : DB} (h : dbGrows db db') {t : String}
    (hm : hasMovieRowFor db t) : hasMovieRowFor db' t := by
  obtain ⟨m, hmem, hmt⟩ := hm
  obtain ⟨-, -, ⟨l, e⟩, -⟩ := h
  exact ⟨m, by rw [e]; exact List.mem_append_left l hmem, hmt⟩

/-- Growth preserves failure entries. -/
lemma hasFailedFor_mono {db db' : DB} (h : dbGrows db db') {t : String}
    (hf : hasFailedFor db t) : hasFailedFor db' t := by
  obtain ⟨-, -, -, ⟨l, e⟩⟩ := h
  unfold hasFailedFor at hf ⊢
  rw [e]
  exact List.mem_append_left l hf

/-! ## Component facts -/

lemma markFailed_books (db : DB) (t : String) : (markFailed db t).books = db.books := by
  unfold markFailed; split <;> rfl

lemma markFailed_movies (db : DB) (t : String) : (markFailed db t).movies = db.movies := by
  unfold markFailed; split <;> rfl

lemma markFailed_bookMovie (db : DB) (t : String) :
    (markFailed db t).bookMovie = db.bookMovie := by
  unfold markFailed; split <;> rfl

lemma markFailed_hasFailed (db : DB) (t : String) : hasFailedFor (markFailed db t) t := by
  unfold markFailed hasFailedFor
  split
  · next h => exact List.elem_iff.mp h
  · exact List.mem_append_right _ (List.mem_singleton.mpr rfl)

lemma markFailed_failedTitles (db : DB) (t : String) :
    (markFailed db t).failedTitles = db.failedTitles ∨
    (markFailed db t).failedTitles = db.failedTitles ++ [t] := by
  unfold markFailed; split
  · exact Or.inl rfl
  · exact Or.inr rfl

lemma insertBookIgnore_hasBook (db : DB) (book : BookData) :
    hasBookRowFor (insertBookIgnore db book) book.book_title := by
  unfold insertBookIgnore hasBookRowFor
  split
  · next h =>
    obtain ⟨b, hb, ht⟩ := List.any_eq_true.mp h
    exact ⟨b, hb, of_decide_eq_true ht⟩
  · exact ⟨_, List.mem_append_right _ (List.mem_singleton.mpr rfl), rfl⟩

lemma insert_adaptation_hasBook (db : DB) (book : BookData) (movie : MovieData) :
    hasBookRowFor (insert_adaptation db book movie) book.book_title := by
  unfold insert_adaptation
  exact hasBookRowFor_mono (insertAdaptationRest_grows _ book movie)
    (insertBookIgnore_hasBook db book)

/-- After a candidate is processed, it has an outcome: a failure entry or a
book row keyed by the scraped title. -/
lemma processCandidate_outcome (bf : String → NetResult GBRaw)
    (mf : String → NetResult OMDbRaw) (db : DB) (t : String) :
    hasFailedFor (processCandidate bf mf db t).1 t ∨
    hasBookRowFor (processCandidate bf mf db t).1 t := by
  unfold processCandidate
  cases parse_google_books_entry (fetch_google_books_raw (bf t)) with
  | none => exact Or.inl (markFailed_hasFailed db t)
  | some gb =>
    cases parse_omdb_entry (fetch_omdb_raw (mf t)) with
    | none => exact Or.inl (markFailed_hasFailed db t)
    | some md => exact Or.inr (insert_adaptation_hasBook db _ md)

/-! ## Loop invariants of `load_batch` -/

lemma loadBatchLoop_inserted_le (bf : String → NetResult GBRaw)
    (mf : String → NetResult OMDbRaw) (maxNew : Nat) :
    ∀ (cands : List String) (db : DB) (ins : Nat) (att mc : List String),
      ins ≤ maxNew → (loadBatchLoop bf mf maxNew cands db ins att mc).inserted ≤ maxNew := by
  intro cands
  induction cands with
  | nil => intro db ins att mc h; exact h
  | cons t rest ih =>
    intro db ins att mc h
    rw [loadBatchLoop]
    split
    · exact h
    · next hlt =>
      have hins : ins < maxNew := Nat.lt_of_not_le hlt
      cases hp : processCandidate bf mf db t with
      | mk db' rest' =>
        cases rest' with
        | mk ok mcall =>
          cases ok
          · exact ih _ _ _ _ h
          · exact ih _ _ _ _ hins

lemma loadBatchLoop_attempted_le (bf : String → NetResult GBRaw)
    (mf : String → NetResult OMDbRaw) (maxNew : Nat) :
    ∀ (cands : List String) (db : DB) (ins : Nat) (att mc : List String),
      (loadBatchLoop bf mf maxNew cands db ins att mc).attempted.length ≤
        att.length + cands.length := by
  intro cands
  induction cands with
  | nil => intro db ins att mc; simp [loadBatchLoop]
  | cons t rest ih =>
    intro db ins att mc
    rw [loadBatchLoop]
    split
    · simp
    · cases hp : processCandidate bf mf db t with
      | mk db' rest' =>
        cases rest' with
        | mk ok mcall =>
          calc (loadBatchLoop bf mf maxNew rest db' (if ok then ins + 1 else ins)
                  (att ++ [t]) (if mcall then mc ++ [t] else mc)).attempted.length
              ≤ (att ++ [t]).length + rest.length := ih _ _ _ _
            _ = att.length + (t :: rest).length := by simp [Nat.add_comm, Nat.add_assoc,
                Nat.add_left_comm]

/-- Every candidate the loop has processed ends with an outcome in the
final state: a failure entry or a book row keyed by its title. -/
lemma loadBatchLoop_outcomes (bf : String → NetResult GBRaw)
    (mf : String → NetResult OMDbRaw) (maxNew : Nat) :
    ∀ (cands : List String) (db : DB) (ins : Nat) (att mc : List String),
      (∀ t ∈ att, hasFailedFor db t ∨ hasBookRowFor db t) →
      ∀ t ∈ (loadBatchLoop bf mf maxNew cands db ins att mc).attempted,
        hasFailedFor (loadBatchLoop bf mf maxNew cands db ins att mc).db t ∨
        hasBookRowFor (loadBatchLoop bf mf maxNew cands db ins att mc).db t := by
  intro cands
  induction cands with
  | nil => intro db ins att mc h; exact h
  | cons t rest ih =>
    intro db ins att mc h
    rw [loadBatchLoop]
    split
    · exact h
    · cases hp : processCandidate bf mf db t with
      | mk db' rest' =>
        cases rest' with
        | mk ok mcall =>
          have hg : dbGrows db db' := by
            have h2 := processCandidate_grows bf mf db t
            rw [hp] at h2
            exact h2
          apply ih
          intro u hu
          rcases List.mem_append.mp hu with hu | hu
          · rcases h u hu with hf | hb
            · exact Or.inl (hasFailedFor_mono hg hf)
            · exact Or.inr (hasBookRowFor_mono hg hb)
          · rw [List.mem_singleton.mp hu]
            have ho := processCandidate_outcome bf mf db t
            rw [hp] at ho
            exact ho

/-! ## Decidability of the outcome predicates (used by concrete witnesses) -/

instance (db : DB) (t : String) : Decidable (hasBookRowFor db t) :=
  inferInstanceAs (Decidable (∃ b ∈ db.books, b.book_title = t))

instance (db : DB) (t : String) : Decidable (hasMovieRowFor db t) :=
  inferInstanceAs (Decidable (∃ m ∈ db.movies, m.movie_title = some t))

instance (db : DB) (t : String) : Decidable (hasFailedFor db t) :=
  inferInstanceAs (Decidable (t ∈ db.failedTitles))

instance (db : DB) (t : String) : Decidable (hasOutcomeFor db t) :=
  inferInstanceAs (Decidable (_ ∨ _ ∨ _))

instance (db : DB) (t : String) : Decidable (isPendingTitle db t) :=
  inferInstanceAs (Decidable (_ ∧ _))

/-! ## The pending computation, characterised -/

/-- The WHERE clause of `get_pending_titles`, as a proposition: the boolean
anti-join conditions hold exactly when the title has no outcome. -/
lemma pendingPred_iff (db : DB) (a : AdaptRow) :
    ((db.books.find? (fun b => b.book_title = a.title)).isNone &&
     ((db.movies.find? (fun m => m.movie_title = some a.title)).isNone &&
      !(db.failedTitles.contains a.title))) = true ↔
    ¬ hasOutcomeFor db a.title := by
  unfold hasOutcomeFor hasBookRowFor hasMovieRowFor hasFailedFor
  simp only [Bool.and_eq_true, Bool.not_eq_true', Option.isNone_iff_eq_none,
    List.find?_eq_none, decide_eq_true_eq]
  constructor
  · rintro ⟨hb, hm, hf⟩ (⟨b, hbm, hbt⟩ | ⟨m, hmm, hmt⟩ | hff)
    · exact hb b hbm hbt
    · exact hm m hmm hmt
    · simp at hf
      exact hf hff
  · intro h
    refine ⟨fun b hbm hbt => h (Or.inl ⟨b, hbm, hbt⟩),
      fun m hmm hmt => h (Or.inr (Or.inl ⟨m, hmm, hmt⟩)), ?_⟩
    have hnot : a.title ∉ db.failedTitles := fun hff => h (Or.inr (Or.inr hff))
    simpa using hnot

/-- Soundness: every title returned by `get_pending_titles` is registered
and has no book row, no movie row and no failure entry. -/
lemma pending_mem_sound {db : DB} {limit : Nat} {t : String}
    (h : t ∈ get_pending_titles db limit) :
    (∃ a ∈ db.adaptations, a.title = t) ∧
      ¬ hasBookRowFor db t ∧ ¬ hasMovieRowFor db t ∧ ¬ hasFailedFor db t := by
  unfold get_pending_titles at h
  obtain ⟨a, haf, hat⟩ := List.mem_map.mp (List.mem_of_mem_take h)
  obtain ⟨ham, hpred⟩ := List.mem_filter.mp haf
  have hout : ¬ hasOutcomeFor db a.title := (pendingPred_iff db a).mp (by
    simpa [Bool.and_assoc] using hpred)
  subst hat
  refine ⟨⟨a, ham, rfl⟩, fun hb => hout (Or.inl hb), fun hm => hout (Or.inr (Or.inl hm)),
    fun hf => hout (Or.inr (Or.inr hf))⟩

/-- Completeness: a pending title has a position `i`, and it appears in
`get_pending_titles db limit` whenever `limit` exceeds that position. -/
lemma pending_position {db : DB} {t : String} (h : isPendingTitle db t) :
    ∃ i, ∀ limit, i < limit → t ∈ get_pending_titles db limit := by
  obtain ⟨⟨a, ham, hat⟩, hout⟩ := h
  have hpred : ((db.books.find? (fun b => b.book_title = a.title)).isNone &&
      ((db.movies.find? (fun m => m.movie_title = some a.title)).isNone &&
       !(db.failedTitles.contains a.title))) = true :=
    (pendingPred_iff db a).mpr (by rw [hat]; exact hout)
  have hmemL : t ∈ (db.adaptations.filter (fun a =>
      (db.books.find? (fun b => b.book_title = a.title)).isNone &&
      (db.movies.find? (fun m => m.movie_title = some a.title)).isNone &&
      !(db.failedTitles.contains a.title))).map (fun a => a.title) := by
    refine List.mem_map.mpr ⟨a, List.mem_filter.mpr ⟨ham, ?_⟩, hat⟩
    simpa [Bool.and_assoc] using hpred
  obtain ⟨i, hi, hget⟩ := List.mem_iff_getElem.mp hmemL
  refine ⟨i, fun limit hlim => ?_⟩
  unfold get_pending_titles
  apply List.mem_iff_getElem.mpr
  refine ⟨i, ?_, ?_⟩
  · rw [List.length_take]
    exact lt_min hlim hi
  · rw [List.getElem_take]
    exact hget

/-- When nothing is pending, `get_pending_titles` returns the empty list
(and in particular does not fail). -/
lemma pending_empty {db : DB} (h : ∀ t, ¬ isPendingTitle db t) (limit : Nat) :
    get_pending_titles db limit = [] := by
  unfold get_pending_titles
  have : db.adaptations.filter (fun a =>
      (db.books.find? (fun b => b.book_title = a.title)).isNone &&
      (db.movies.find? (fun m => m.movie_title = some a.title)).isNone &&
      !(db.failedTitles.contains a.title)) = [] := by
    apply List.filter_eq_nil_iff.mpr
    intro a ham hpred
    have hout : ¬ hasOutcomeFor db a.title := (pendingPred_iff db a).mp (by
      simpa [Bool.and_assoc] using hpred)
    exact h a.title ⟨⟨a, ham, rfl⟩, hout⟩
  rw [this]
  simp

/-! ## Reachable operations of the pipeline -/

/-- The operations the program ever performs on the store: registering a
scraped raw title, or running one `load_batch` invocation with some
behaviour of the two external sources. -/
inductive PipelineOp where
  | reg (raw : String)
  | batch (bf : String → NetResult GBRaw) (mf : String → NetResult OMDbRaw) (maxNew : Nat)

/-- Apply one pipeline operation to the store. -/
def applyOp (db : DB) : PipelineOp → DB
  | .reg raw => registerTitle db raw
  | .batch bf mf maxNew => (load_batch bf mf db maxNew).db

/-- Apply a whole sequence of pipeline operations. -/
def applyOps (db : DB) (ops : List PipelineOp) : DB := ops.foldl applyOp db

lemma applyOp_grows (db : DB) (op : PipelineOp) : dbGrows db (applyOp db op) := by
  cases op with
  | reg raw => exact registerCleaned_grows db _
  | batch bf mf maxNew => exact load_batch_grows bf mf db maxNew

lemma applyOps_grows (db : DB) (ops : List PipelineOp) : dbGrows db (applyOps db ops) := by
  induction ops generalizing db with
  | nil => exact dbGrows_refl db
  | cons op rest ih => exact dbGrows_trans (applyOp_grows db op) (ih (applyOp db op))

/-! ## The series-marker pattern, characterised -/

/-- Declarative reading of the regex suffix `\s*\(.*?#\d+.*\)` matched in
full: whitespace, an opening paren, a newline-free middle containing a
`'#'` immediately followed by a digit, and a closing paren at the very
end. -/
def MarkerSuffix (t : List Char) : Prop :=
  ∃ w mid, t = w ++ '(' :: (mid ++ [')']) ∧ (∀ c ∈ w, pySpace c = true) ∧
    '\n' ∉ mid ∧ ∃ a d b, mid = a ++ '#' :: d :: b ∧ d.isDigit = true

lemma hasHashDigit_sound : ∀ {l : List Char}, hasHashDigit l = true →
    ∃ a d b, l = a ++ '#' :: d :: b ∧ d.isDigit = true := by
  intro l
  induction l with
  | nil => intro h; simp [hasHashDigit] at h
  | cons c rest ih =>
    intro h
    rw [hasHashDigit] at h
    simp only [Bool.or_eq_true, Bool.and_eq_true] at h
    rcases h with ⟨hc, hd⟩ | h2
    · have hc' : c = '#' := by simpa using hc
      cases rest with
      | nil => simp [headIsDigit] at hd
      | cons d rest' =>
        exact ⟨[], d, rest', by simp [hc'], by simpa [headIsDigit] using hd⟩
    · obtain ⟨a, d, b, he, hdig⟩ := ih h2
      exact ⟨c :: a, d, b, by simp [he], hdig⟩

lemma mem_of_takeWhile {p : Char → Bool} {l : List Char} :
    ∀ c ∈ l.takeWhile p, p c = true := fun _ hc => List.mem_takeWhile_imp hc

lemma suffixMatchesSeries_sound {t : List Char} (h : suffixMatchesSeries t = true) :
    MarkerSuffix t := by
  unfold suffixMatchesSeries at h
  cases hd : t.dropWhile pySpace with
  | nil => rw [hd] at h; simp at h
  | cons c tail =>
    rw [hd] at h
    rw [Bool.and_eq_true] at h
    obtain ⟨hc, h2⟩ := h
    have hc' : c = '(' := by simpa using hc
    subst hc'
    cases hr : tail.reverse with
    | nil => rw [hr] at h2; simp at h2
    | cons c2 revMid =>
      rw [hr] at h2
      rw [Bool.and_eq_true, Bool.and_eq_true] at h2
      obtain ⟨⟨h5, h6⟩, h4⟩ := h2
      have hc2 : c2 = ')' := by simpa using h5
      subst hc2
      have htail : tail = revMid.reverse ++ [')'] := by
        have hrr := congrArg List.reverse hr
        simpa using hrr
      refine ⟨t.takeWhile pySpace, revMid.reverse, ?_, mem_of_takeWhile, ?_, ?_⟩
      · rw [← htail, ← hd, List.takeWhile_append_dropWhile]
      · intro hmem
        have hcontains : revMid.reverse.contains '\n' = true := by simpa using hmem
        rw [hcontains] at h6
        simp at h6
      · exact hasHashDigit_sound h4

/-- When no suffix of the input carries the series marker, the regex fails
and the scan returns `none`. -/
lemma findSeriesSplit_none {l : List Char}
    (h : ∀ i, ¬ MarkerSuffix (l.drop i)) : ∀ pre, findSeriesSplit pre l = none := by
  induction l with
  | nil =>
    intro pre
    rw [findSeriesSplit]
    have hfalse : suffixMatchesSeries ([] : List Char) = false := by decide
    rw [hfalse]
    rfl
  | cons c rest ih =>
    intro pre
    rw [findSeriesSplit]
    have hfalse : suffixMatchesSeries (c :: rest) = false := by
      cases hb : suffixMatchesSeries (c :: rest)
      · rfl
      · exact absurd (suffixMatchesSeries_sound hb) (by simpa using h 0)
    rw [hfalse]
    simp only [Bool.false_eq_true, if_false]
    split
    · rfl
    · exact ih (fun i => by simpa using h (i + 1)) (c :: pre)

/-- A marker suffix always contains an opening paren. -/
lemma MarkerSuffix.paren_mem {t : List Char} (h : MarkerSuffix t) : '(' ∈ t := by
  obtain ⟨w, mid, he, -, -, -⟩ := h
  rw [he]
  exact List.mem_append_right w (List.mem_cons_self _ _)

/-- After a cleaned title is registered, a row with that exact title is
present. -/
lemma registerCleaned_mem (db : DB) (t : String) :
    (registerCleaned db t).adaptations.any (fun a => a.title = t) = true := by
  unfold registerCleaned
  split
  · next h => exact h
  · simp

/-- Registering a title whose row already exists changes nothing. -/
lemma registerCleaned_noop {db : DB} {t : String}
    (h : db.adaptations.any (fun a => a.title = t) = true) :
    registerCleaned db t = db := by
  unfold registerCleaned
  rw [h]
  rfl

/-- `find?` over an appended list scans the left part first. -/
lemma find?_append_left_none {α : Type} {p : α → Bool} {l1 l2 : List α}
    (h : l1.find? p = none) : (l1 ++ l2).find? p = l2.find? p := by
  rw [List.find?_append, h]
  rfl

/-- `any` is `false` exactly on lists with no satisfying member. -/
lemma any_eq_false_iff {α : Type} {p : α → Bool} {l : List α} :
    l.any p = false ↔ ∀ x ∈ l, ¬ p x = true := by
  cases hb : l.any p
  · simp only [true_iff]
    intro x hx hp
    exact absurd (List.any_eq_true.mpr ⟨x, hx, hp⟩) (by rw [hb]; simp)
  · simp only [Bool.true_eq_false, false_iff]
    push_neg
    obtain ⟨x, hx, hp⟩ := List.any_eq_true.mp hb
    exact ⟨x, hx, by simpa using hp⟩

/-! ## Concrete source behaviours and states used in scenarios -/

/-- Book source that always succeeds, echoing the queried title back. -/
def booksAlwaysOk : String → NetResult GBRaw :=
  fun t => .ok ⟨some [⟨⟨some t, none, none, none⟩⟩]⟩

/-- Movie source that always succeeds, echoing the queried title back. -/
def moviesAlwaysOk : String → NetResult OMDbRaw :=
  fun t => .ok ⟨some "True", some t, some "8.4", some "1,234"⟩

/-- Book source whose request always fails. -/
def booksAlwaysDown : String → NetResult GBRaw := fun _ => .requestError

/-- Movie source whose request always fails. -/
def moviesAlwaysDown : String → NetResult OMDbRaw := fun _ => .requestError

/-- Book source that fails only for the title `"A"`. -/
def booksFailOnA : String → NetResult GBRaw :=
  fun t => if t = "A" then .requestError else booksAlwaysOk t

/-- A fresh registry holding the single pending candidate `"A"`. -/
def onePendingDB : DB := { emptyDB with adaptations := [⟨1, "A", goodreadsListUrl⟩] }

/-- A fresh registry holding the two pending candidates `"A"` and `"B"`. -/
def twoPendingDB : DB :=
  { emptyDB with adaptations := [⟨1, "A", goodreadsListUrl⟩, ⟨2, "B", goodreadsListUrl⟩] }

/-- A fresh registry holding the 100 pending candidates `"T0"` … `"T99"`. -/
def hundredPendingDB : DB :=
  { emptyDB with adaptations :=
      (List.range 100).map (fun n => ⟨n + 1, "T" ++ toString n, goodreadsListUrl⟩) }

set_option maxRecDepth 4000

/-! ## The claims -/

/-- C1 (counterexample): with budget `maxNew = 1`, two pending candidates
and a book source that is down, `load_batch` attempts an enrichment for
both candidates — more than `maxNew` — because failures do not advance the
`inserted` counter and the candidate pool holds `2 * maxNew` titles.  This
refutes the claim that at most `maxNew` candidates are processed
regardless of failures. -/
theorem c1_counterexample :
    (load_batch booksAlwaysDown moviesAlwaysDown twoPendingDB 1).attempted.length = 2 ∧
    ¬ ((load_batch booksAlwaysDown moviesAlwaysDown twoPendingDB 1).attempted.length ≤ 1) := by
  decide

/-- C1 (amended): one `load_batch` invocation commits at most `maxNew`
successful enrichments, and attempts an enrichment for at most
`2 * maxNew` candidates (the pool drawn at line 375). -/
theorem c1_amended (bf : String → NetResult GBRaw) (mf : String → NetResult OMDbRaw)
    (db : DB) (maxNew : Nat) :
    (load_batch bf mf db maxNew).inserted ≤ maxNew ∧
    (load_batch bf mf db maxNew).attempted.length ≤ 2 * maxNew := by
  unfold load_batch
  cases hl : loadBatchLoop bf mf maxNew (get_pending_titles db (maxNew * 2)) db 0 [] [] with
  | mk db' ins att mc =>
    dsimp only
    constructor
    · have h1 := loadBatchLoop_inserted_le bf mf maxNew
        (get_pending_titles db (maxNew * 2)) db 0 [] [] (Nat.zero_le maxNew)
      rw [hl] at h1
      exact h1
    · have h2 := loadBatchLoop_attempted_le bf mf maxNew
        (get_pending_titles db (maxNew * 2)) db 0 [] []
      rw [hl] at h2
      refine le_trans h2 ?_
      simp only [List.length_nil, Nat.zero_add]
      calc (get_pending_titles db (maxNew * 2)).length
          ≤ maxNew * 2 := by
            unfold get_pending_titles
            exact List.length_take_le _ _
        _ = 2 * maxNew := Nat.mul_comm maxNew 2

/-- C2: with 100 pending candidates, a budget of 25 and both sources
succeeding on every query, `load_batch` commits exactly 25 book/movie
pairs, attempts exactly 25 candidates (the loop stops at the budget, well
before the 50-candidate pool is exhausted), and leaves exactly 75
candidates pending. -/
theorem c2_budget_scenario :
    (load_batch booksAlwaysOk moviesAlwaysOk hundredPendingDB 25).inserted = 25 ∧
    (load_batch booksAlwaysOk moviesAlwaysOk hundredPendingDB 25).db.books.length = 25 ∧
    (load_batch booksAlwaysOk moviesAlwaysOk hundredPendingDB 25).db.movies.length = 25 ∧
    (load_batch booksAlwaysOk moviesAlwaysOk hundredPendingDB 25).db.bookMovie.length = 25 ∧
    (load_batch booksAlwaysOk moviesAlwaysOk hundredPendingDB 25).attempted.length = 25 ∧
    (get_pending_titles
      (load_batch booksAlwaysOk moviesAlwaysOk hundredPendingDB 25).db 100).length = 75 := by
  decide

/-- C5: registration is deduplicating and idempotent — registering a raw
string whose normalised form already has a row is a silent no-op, and
registering the same string twice leaves the same rows and the same
registry size as registering it once. -/
theorem c5_register_idempotent :
    (∀ (db : DB) (raw : String),
        (∃ a ∈ db.adaptations, a.title = clean_goodreads_title raw) →
        registerTitle db raw = db) ∧
    ∀ (db : DB) (raw : String),
      registerTitle (registerTitle db raw) raw = registerTitle db raw ∧
      (registerTitle (registerTitle db raw) raw).adaptations.length =
        (registerTitle db raw).adaptations.length := by
  constructor
  · intro db raw ⟨a, ham, hat⟩
    unfold registerTitle
    exact registerCleaned_noop (List.any_eq_true.mpr ⟨a, ham, by simpa using hat⟩)
  · intro db raw
    have hnoop : registerTitle (registerTitle db raw) raw = registerTitle db raw := by
      unfold registerTitle
      exact registerCleaned_noop (registerCleaned_mem db (clean_goodreads_title raw))
    exact ⟨hnoop, by rw [hnoop]⟩

/-- C5 (witness): registering `"A"` into a registry that already holds
`"A"` returns the registry unchanged. -/
theorem c5_witness :
    registerTitle onePendingDB "A" = onePendingDB :=
  c5_register_idempotent.1 onePendingDB "A" (by decide)

/-- C6: normalisation strips a trailing parenthesised series marker
(`"The Hunger Games (The Hunger Games, #1)"` becomes
`"The Hunger Games"`), trims surrounding whitespace, and leaves any
already-trimmed string without a series-marker suffix unchanged
(`"Plain Title"` stays `"Plain Title"`). -/
theorem c6_normalization :
    clean_goodreads_title "The Hunger Games (The Hunger Games, #1)" = "The Hunger Games" ∧
    clean_goodreads_title "Plain Title" = "Plain Title" ∧
    clean_goodreads_title "  Plain Title  " = "Plain Title" ∧
    ∀ s : String, (∀ i, ¬ MarkerSuffix (s.data.drop i)) →
      String.mk (pyStrip s.data) = s → clean_goodreads_title s = s := by
  refine ⟨by decide, by decide, by decide, ?_⟩
  intro s hnm hstrip
  unfold clean_goodreads_title
  rw [findSeriesSplit_none hnm []]
  exact hstrip

/-- C6 (witness): a plain string with no parenthesis and no surrounding
whitespace is left unchanged. -/
theorem c6_witness : clean_goodreads_title "Figure" = "Figure" := by
  refine c6_normalization.2.2.2 "Figure" (fun i hm => ?_) (by decide)
  exact absurd (List.drop_subset i "Figure".data hm.paren_mem) (by decide)

/-- C9: the movie-rating conversion halves a present 0–10 rating onto the
0–5 scale (8.4 maps to 4.2) and maps an absent rating to absent — never to
zero and never to an error. -/
theorem c9_rating_conversion :
    convert_movie_rating (some ((84 : Rat) / 10)) = some ((42 : Rat) / 10) ∧
    convert_movie_rating none = none ∧
    (∀ r : Rat, convert_movie_rating (some r) = some (r / 2)) ∧
    convert_movie_rating none ≠ some 0 := by
  refine ⟨by norm_num [convert_movie_rating], rfl, fun r => rfl, by simp [convert_movie_rating]⟩

lemma markFailed_hasBook_iff (db : DB) (t u : String) :
    hasBookRowFor (markFailed db t) u ↔ hasBookRowFor db u := by
  unfold hasBookRowFor
  rw [markFailed_books]

lemma markFailed_hasMovie_iff (db : DB) (t u : String) :
    hasMovieRowFor (markFailed db t) u ↔ hasMovieRowFor db u := by
  unfold hasMovieRowFor
  rw [markFailed_movies]

/-- C3: on either failure path of one candidate's attempt — the book
source yields no usable entry, or the book source succeeds and the movie
source yields no usable entry — the attempt stores nothing in `Books`,
`Movies` or `Book_Movie`, records only a failure entry for the candidate,
reports no success, makes no movie-source call when the book source
already failed, and creates no book or movie row keyed by the candidate. -/
theorem c3_failure_paths (bf : String → NetResult GBRaw)
    (mf : String → NetResult OMDbRaw) (db : DB) (t : String)
    (h : parse_google_books_entry (fetch_google_books_raw (bf t)) = none ∨
         parse_omdb_entry (fetch_omdb_raw (mf t)) = none) :
    (processCandidate bf mf db t).1.books = db.books ∧
    (processCandidate bf mf db t).1.movies = db.movies ∧
    (processCandidate bf mf db t).1.bookMovie = db.bookMovie ∧
    hasFailedFor (processCandidate bf mf db t).1 t ∧
    (processCandidate bf mf db t).2.1 = false ∧
    (parse_google_books_entry (fetch_google_books_raw (bf t)) = none →
      (processCandidate bf mf db t).2.2 = false) ∧
    (¬ hasBookRowFor db t → ¬ hasBookRowFor (processCandidate bf mf db t).1 t) ∧
    (¬ hasMovieRowFor db t → ¬ hasMovieRowFor (processCandidate bf mf db t).1 t) := by
  unfold processCandidate
  cases hgb : parse_google_books_entry (fetch_google_books_raw (bf t)) with
  | none =>
    refine ⟨markFailed_books db t, markFailed_movies db t, markFailed_bookMovie db t,
      markFailed_hasFailed db t, rfl, fun _ => rfl, ?_, ?_⟩
    · exact fun hnb hb => hnb ((markFailed_hasBook_iff db t t).mp hb)
    · exact fun hnm hm => hnm ((markFailed_hasMovie_iff db t t).mp hm)
  | some gb =>
    cases hmd : parse_omdb_entry (fetch_omdb_raw (mf t)) with
    | none =>
      refine ⟨markFailed_books db t, markFailed_movies db t, markFailed_bookMovie db t,
        markFailed_hasFailed db t, rfl, fun hh => ?_, ?_, ?_⟩
      · cases hh
      · exact fun hnb hb => hnb ((markFailed_hasBook_iff db t t).mp hb)
      · exact fun hnm hm => hnm ((markFailed_hasMovie_iff db t t).mp hm)
    | some md =>
      rcases h with h1 | h2
      · exact absurd (hgb.symm.trans h1) (by simp)
      · exact absurd (hmd.symm.trans h2) (by simp)

/-- C3 (witness): with the book source down, attempting candidate `"A"` on
the empty store records only a failure entry and reports no success. -/
theorem c3_witness :
    hasFailedFor (processCandidate booksAlwaysDown moviesAlwaysDown emptyDB "A").1 "A" ∧
    (processCandidate booksAlwaysDown moviesAlwaysDown emptyDB "A").2.1 = false ∧
    (processCandidate booksAlwaysDown moviesAlwaysDown emptyDB "A").2.2 = false := by
  have h := c3_failure_paths booksAlwaysDown moviesAlwaysDown emptyDB "A"
    (Or.inl (by decide))
  exact ⟨h.2.2.2.1, h.2.2.2.2.1, h.2.2.2.2.2.1 (by decide)⟩

/-- C7 (counterexample): two completed `load_batch` invocations that
differ in their attempted and failed counts (1 attempt, 0 failures versus
2 attempts, 1 failure) end with the identical summary — the only summary
emitted reports the success count and the cap, so the invocation does not
return the batch's attempted and failed counts. -/
theorem c7_counterexample :
    (load_batch booksAlwaysOk moviesAlwaysOk onePendingDB 25).summary =
      (load_batch booksFailOnA moviesAlwaysOk twoPendingDB 25).summary ∧
    (load_batch booksAlwaysOk moviesAlwaysOk onePendingDB 25).attempted.length = 1 ∧
    (load_batch booksFailOnA moviesAlwaysOk twoPendingDB 25).attempted.length = 2 ∧
    (load_batch booksAlwaysOk moviesAlwaysOk onePendingDB 25).db.failedTitles.length = 0 ∧
    (load_batch booksFailOnA moviesAlwaysOk twoPendingDB 25).db.failedTitles.length = 1 := by
  decide

/-- C7 (amended): under every behaviour of the two sources, `load_batch`
runs to completion — every source-level failure is absorbed: each
attempted candidate ends with either a failure entry or a committed book
row — and the invocation always emits its final summary line, which
reports the number of successful insertions and the cap. -/
theorem c7_amended (bf : String → NetResult GBRaw) (mf : String → NetResult OMDbRaw)
    (db : DB) (maxNew : Nat) :
    (load_batch bf mf db maxNew).summary =
      finishedLine (load_batch bf mf db maxNew).inserted maxNew ∧
    ∀ t ∈ (load_batch bf mf db maxNew).attempted,
      hasFailedFor (load_batch bf mf db maxNew).db t ∨
      hasBookRowFor (load_batch bf mf db maxNew).db t := by
  unfold load_batch
  cases hl : loadBatchLoop bf mf maxNew (get_pending_titles db (maxNew * 2)) db 0 [] [] with
  | mk db' ins att mc =>
    dsimp only
    constructor
    · rfl
    · have h := loadBatchLoop_outcomes bf mf maxNew
        (get_pending_titles db (maxNew * 2)) db 0 [] [] (by simp)
      rw [hl] at h
      exact h

/-- C7 (witness): in a run where the book source is down, the attempted
candidate `"A"` ends with an absorbed failure or a committed book row. -/
theorem c7_witness :
    hasFailedFor (load_batch booksAlwaysDown moviesAlwaysDown twoPendingDB 1).db "A" ∨
    hasBookRowFor (load_batch booksAlwaysDown moviesAlwaysDown twoPendingDB 1).db "A" :=
  (c7_amended booksAlwaysDown moviesAlwaysDown twoPendingDB 1).2 "A" (by decide)

/-- C8: `get_pending_titles` is stable and ordered: the result for a
smaller limit is exactly the truncation of the result for a larger limit
(so consecutive reads with no intervening writes agree on their common
length), and every result lists titles in the registry's insertion order
(it is a sublist of the registry's title column). -/
theorem c8_pending_order (db : DB) (k n : Nat) (h : k ≤ n) :
    get_pending_titles db k = (get_pending_titles db n).take k ∧
    List.Sublist (get_pending_titles db n) (db.adaptations.map (fun a => a.title)) := by
  constructor
  · unfold get_pending_titles
    rw [List.take_take, min_eq_left h]
  · exact List.Sublist.trans (List.take_sublist n _)
      (List.Sublist.map _ (List.filter_sublist _))

/-- C8 (witness): with two pending candidates, reading with limit 1
returns the first element of the limit-2 read, which in turn respects the
registry order. -/
theorem c8_witness :
    get_pending_titles twoPendingDB 1 = (get_pending_titles twoPendingDB 2).take 1 ∧
    List.Sublist (get_pending_titles twoPendingDB 2)
      (twoPendingDB.adaptations.map (fun a => a.title)) :=
  c8_pending_order twoPendingDB 1 2 (by decide)

/-- C4: correctness of the pending computation.  (1) Soundness: every
returned title is registered and has no book row, no movie row and no
failure entry.  (2) Completeness: a pending title has a position and
appears in every read whose limit exceeds it.  (3) Permanence: a title
with a failure entry, or with both records, never appears in any later
read, whatever pipeline operations (registrations and batches) intervene.
(4) When nothing is pending the read returns the empty list rather than an
error. -/
theorem c4_pending_correct :
    (∀ (db : DB) (limit : Nat) (t : String), t ∈ get_pending_titles db limit →
        (∃ a ∈ db.adaptations, a.title = t) ∧
        ¬ hasBookRowFor db t ∧ ¬ hasMovieRowFor db t ∧ ¬ hasFailedFor db t) ∧
    (∀ (db : DB) (t : String), isPendingTitle db t →
        ∃ i, ∀ limit, i < limit → t ∈ get_pending_titles db limit) ∧
    (∀ (db : DB) (t : String) (ops : List PipelineOp) (limit : Nat),
        hasFailedFor db t ∨ (hasBookRowFor db t ∧ hasMovieRowFor db t) →
        t ∉ get_pending_titles (applyOps db ops) limit) ∧
    (∀ (db : DB) (limit : Nat), (∀ t, ¬ isPendingTitle db t) →
        get_pending_titles db limit = []) := by
  refine ⟨fun db limit t h => pending_mem_sound h,
    fun db t h => pending_position h, ?_, fun db limit h => pending_empty h limit⟩
  intro db t ops limit hout hmem
  have hgrow := applyOps_grows db ops
  have hs := pending_mem_sound hmem
  rcases hout with hf | ⟨hb, -⟩
  · exact hs.2.2.2 (hasFailedFor_mono hgrow hf)
  · exact hs.2.1 (hasBookRowFor_mono hgrow hb)

/-- A registry where `"A"` is pending and `"B"` already failed. -/
def pendingDemoDB : DB :=
  ⟨[⟨1, "A", goodreadsListUrl⟩, ⟨2, "B", goodreadsListUrl⟩], [], [], [], ["B"]⟩

/-- A registry whose single candidate `"C"` already failed. -/
def allFailedDB : DB := ⟨[⟨1, "C", goodreadsListUrl⟩], [], [], [], ["C"]⟩

/-- C4 (witness): on a concrete state, a returned title has no failure
entry, a pending title appears once the limit passes its position, a
failed title survives an empty operation run and a registration without
reappearing, and a fully-failed registry reads as empty. -/
theorem c4_witness :
    (¬ hasFailedFor pendingDemoDB "A") ∧
    (∃ i, ∀ limit, i < limit → "A" ∈ get_pending_titles pendingDemoDB limit) ∧
    ("B" ∉ get_pending_titles (applyOps pendingDemoDB [PipelineOp.reg "Z"]) 5) ∧
    get_pending_titles allFailedDB 3 = [] := by
  refine ⟨(c4_pending_correct.1 pendingDemoDB 2 "A" (by decide)).2.2.2,
    c4_pending_correct.2.1 pendingDemoDB "A" (by decide),
    c4_pending_correct.2.2.1 pendingDemoDB "B" [PipelineOp.reg "Z"] 5 (Or.inl (by decide)),
    c4_pending_correct.2.2.2 allFailedDB 3 ?_⟩
  rintro t ⟨⟨a, ham, hat⟩, hout⟩
  have ha : a = ⟨1, "C", goodreadsListUrl⟩ := by simpa [allFailedDB] using ham
  apply hout
  right; right
  rw [← hat, ha]
  decide

/-- C10: on a successful enrichment the stored book row is keyed by the
scraped candidate title (the book source's returned title is overridden),
while the movie row is keyed by the movie source's returned title; when a
movie row with that returned title already exists, the commit adds no new
movie row and links the candidate's fresh book row to the existing movie
row's id. -/
theorem c10_movie_dedup (bf : String → NetResult GBRaw) (mf : String → NetResult OMDbRaw)
    (db : DB) (t : String) (gb : BookData) (md : MovieData) (mt : String) (mrow : MovieRow)
    (hgb : parse_google_books_entry (fetch_google_books_raw (bf t)) = some gb)
    (hmd : parse_omdb_entry (fetch_omdb_raw (mf t)) = some md)
    (hmt : md.movie_title = some mt)
    (hnb : ¬ hasBookRowFor db t)
    (hmrow : db.movies.find? (fun m => m.movie_title = some mt) = some mrow) :
    (processCandidate bf mf db t).1.books =
      db.books ++ [⟨db.books.length + 1, t, gb.authors, gb.book_rating, gb.ratings_count⟩] ∧
    (processCandidate bf mf db t).1.movies = db.movies ∧
    (processCandidate bf mf db t).1.bookMovie =
      db.bookMovie ++ [(db.books.length + 1, mrow.movie_id)] := by
  have hpG : (processCandidate bf mf db t).1 =
      insert_adaptation db { gb with book_title := t } md := by
    unfold processCandidate
    rw [hgb, hmd]
  rw [hpG]
  have e1 : insertBookIgnore db { gb with book_title := t } =
      { db with books := db.books ++
        [⟨db.books.length + 1, t, gb.authors, gb.book_rating, gb.ratings_count⟩] } := by
    unfold insertBookIgnore
    rw [if_neg]
    intro hany
    obtain ⟨x, hx, hp⟩ := List.any_eq_true.mp hany
    exact hnb ⟨x, hx, by simpa using hp⟩
  have hfind0 : db.books.find? (fun b => b.book_title = t) = none :=
    List.find?_eq_none.mpr (fun x hx hp => hnb ⟨x, hx, by simpa using hp⟩)
  have e2 : ({ db with books := db.books ++
        [⟨db.books.length + 1, t, gb.authors, gb.book_rating, gb.ratings_count⟩] } :
        DB).books.find? (fun b => b.book_title = t) =
      some ⟨db.books.length + 1, t, gb.authors, gb.book_rating, gb.ratings_count⟩ := by
    show (db.books ++ [(⟨db.books.length + 1, t, gb.authors, gb.book_rating,
      gb.ratings_count⟩ : BookRow)]).find? (fun b => b.book_title = t) = _
    rw [find?_append_left_none hfind0]
    simp [List.find?]
  have e3 : insertMovieIgnore ({ db with books := db.books ++
        [⟨db.books.length + 1, t, gb.authors, gb.book_rating, gb.ratings_count⟩] }) md =
      { db with books := db.books ++
        [⟨db.books.length + 1, t, gb.authors, gb.book_rating, gb.ratings_count⟩] } := by
    unfold insertMovieIgnore
    rw [hmt, if_pos]
    exact List.any_eq_true.mpr ⟨mrow, List.mem_of_find?_eq_some hmrow,
      by simpa using List.find?_some hmrow⟩
  unfold insert_adaptation insertAdaptationRest
  rw [e1, e2]
  dsimp only
  rw [e3]
  unfold insertLinkStage
  rw [hmt]
  dsimp only
  rw [hmrow]
  exact ⟨rfl, rfl, rfl⟩

/-- Movie source returning the same movie title `"M"` for every query. -/
def moviesSameTitle : String → NetResult OMDbRaw :=
  fun _ => .ok ⟨some "True", some "M", none, none⟩

/-- C10 (witness): committing candidate `"B"` when the movie `"M"` already
exists (from candidate `"A"`) creates a book row keyed `"B"`, no new movie
row, and a link to the existing movie row's id. -/
theorem c10_witness :
    (processCandidate booksAlwaysOk moviesSameTitle
        (load_batch booksAlwaysOk moviesSameTitle onePendingDB 1).db "B").1.movies =
      (load_batch booksAlwaysOk moviesSameTitle onePendingDB 1).db.movies := by
  refine (c10_movie_dedup booksAlwaysOk moviesSameTitle
    (load_batch booksAlwaysOk moviesSameTitle onePendingDB 1).db "B"
    ⟨"B", none, none, none⟩ ⟨some "M", none, none⟩ "M" ⟨1, some "M", none, none⟩
    (by decide) (by decide) (by decide) (by decide) (by decide)).2.1
